import Mathlib

/-!
Verification development for the softlayer-go XML-RPC transport
(`services/compliance.go`: the `Compliance_Report_Type` builder methods and
the `session` package's `XmlRpcTransport.DoRequest`).

Modelling conventions:
* Go strings are Lean `String`s; the `strings` package helpers used by the
  source (`strings.HasPrefix`, `strings.Contains` with a one-character
  needle) are re-defined below over `String.data`.
* Go `int` is `Int` (no arithmetic beyond copying happens on these values).
* Go `time.Duration` is `Int`, counted in nanoseconds, as in Go.
* `map[string]…` values are association lists with pairwise-distinct keys;
  the insertion order of the Go source is kept as the list order (a Go map
  is unordered, so only the key↦value graph is meaningful).
* `interface{}` values appearing in the envelope are the inductive `Value`.
* The process-global `xmlRpcClients` map becomes an explicit `Pool` value
  threaded through `DoRequest`, which returns the updated pool.
* `xmlrpc.NewClient` does I/O (URL parsing may fail), so it enters the
  model as an oracle `newClientOk : String → Bool` saying whether creation
  succeeds for a given URL; on success the client records exactly the
  configuration the source passes: the URL, the round tripper choice
  (debug or not) and the timeout.
* `client.Call` is the network exchange; `DoRequest` returning
  `Except.ok` with a `CallRecord` models that single call being performed
  with the recorded method and parameter sequence.  Every `Except.error`
  result models a return before any network activity.
-/

/-- Model of `session.Session`: the fields read by `DoRequest`. -/
structure Session where
  Endpoint : String
  UserName : String
  APIKey : String
  Debug : Bool
deriving Repr, DecidableEq

/-- Model of `sl.Options`: optional id/limit/offset pointers and the
mask/filter strings (Go zero value: nil pointers, empty strings). -/
structure Options where
  Id : Option Int
  Mask : String
  Filter : String
  Limit : Option Int
  Offset : Option Int
deriving Repr, DecidableEq

/-- The Go zero value of `sl.Options`. -/
def Options.zero : Options :=
  { Id := none, Mask := "", Filter := "", Limit := none, Offset := none }

/-- Model of the `services.Compliance_Report_Type` struct. -/
structure Compliance_Report_Type where
  Session : Option Session
  Options : Options
deriving Repr, DecidableEq

/-- Model of `services.GetComplianceReportTypeService`. -/
def GetComplianceReportTypeService (sess : Option Session) : Compliance_Report_Type :=
  { Session := sess, Options := Options.zero }

/-- Helper for `strings.HasPrefix`: `startsWithAux pre s` is true iff the
character list `pre` is an initial segment of `s`. -/
def startsWithAux : List Char → List Char → Bool
  | [], _ => true
  | _ :: _, [] => false
  | p :: ps, c :: cs => p == c && startsWithAux ps cs

/-- Model of Go `strings.HasPrefix s pre`. -/
def goHasPre (s pre : String) : Bool :=
  startsWithAux pre.data s.data

/-- Model of Go `strings.Contains s needle` for a one-character needle. -/
def goContainsChar (s : String) (c : Char) : Bool :=
  s.data.contains c

/-- The mask normalization performed by the builder method
`Compliance_Report_Type.Mask` (compliance.go lines 48–50): wrap in
`mask[…]` when the string has a `[` and lacks the `mask[` prefix. -/
def builderNormMask (mask : String) : String :=
  if !goHasPre mask "mask[" && goContainsChar mask '[' then
    "mask[" ++ mask ++ "]"
  else
    mask

/-- The mask normalization performed inside `XmlRpcTransport.DoRequest`
(compliance.go lines 198–200): wrap in `mask[…]` whenever the `mask[`
prefix is missing (no bracket test on this side). -/
def envelopeNormMask (mask : String) : String :=
  if !goHasPre mask "mask[" then
    "mask[" ++ mask ++ "]"
  else
    mask

/-- Model of the builder method `Compliance_Report_Type.Id`. -/
def Compliance_Report_Type.Id (r : Compliance_Report_Type) (id : Int) :
    Compliance_Report_Type :=
  { r with Options := { r.Options with Id := some id } }

/-- Model of the builder method `Compliance_Report_Type.Mask`. -/
def Compliance_Report_Type.Mask (r : Compliance_Report_Type) (mask : String) :
    Compliance_Report_Type :=
  { r with Options := { r.Options with Mask := builderNormMask mask } }

/-- Model of the builder method `Compliance_Report_Type.Filter`. -/
def Compliance_Report_Type.Filter (r : Compliance_Report_Type) (filter : String) :
    Compliance_Report_Type :=
  { r with Options := { r.Options with Filter := filter } }

/-- Model of the builder method `Compliance_Report_Type.Limit`. -/
def Compliance_Report_Type.Limit (r : Compliance_Report_Type) (limit : Int) :
    Compliance_Report_Type :=
  { r with Options := { r.Options with Limit := some limit } }

/-- Model of the builder method `Compliance_Report_Type.Offset`. -/
def Compliance_Report_Type.Offset (r : Compliance_Report_Type) (offset : Int) :
    Compliance_Report_Type :=
  { r with Options := { r.Options with Offset := some offset } }

/-!
JSON, as consumed by `json.Unmarshal([]byte(options.Filter), &objFilter)`
with `objFilter : map[string]interface{}`.  Numbers keep their source
lexeme (Go would convert to float64; no claim looks at the numeric value,
only at parse success/failure and at the top-level shape).
-/

/-- JSON values, as produced by Go `encoding/json` decoding into
`interface{}`. -/
inductive Json where
  | null : Json
  | bool : Bool → Json
  | num : String → Json
  | str : String → Json
  | arr : List Json → Json
  | obj : List (String × Json) → Json
deriving Repr

/-- JSON insignificant whitespace (space, tab, newline, carriage return). -/
def isJsonWs : Char → Bool
  | ' ' => true
  | '\t' => true
  | '\n' => true
  | '\r' => true
  | _ => false

/-- Drop leading JSON whitespace. -/
def skipWs (input : List Char) : List Char :=
  match input with
  | [] => []
  | c :: tail => bif isJsonWs c then skipWs tail else input

/-- Hex digit value, if any (code points 0-9, a-f, A-F). -/
def hexDigitVal (c : Char) : Option Nat :=
  let n := c.toNat
  if 48 ≤ n ∧ n ≤ 57 then some (n - 48)
  else if 97 ≤ n ∧ n ≤ 102 then some (n - 87)
  else if 65 ≤ n ∧ n ≤ 70 then some (n - 55)
  else none

/-- Parse the body of a JSON string literal after the opening quote,
returning the decoded string and the remaining input.  Control characters
below U+0020 are rejected; the escape forms of RFC 8259 are accepted. -/
def parseStringBody : Nat → List Char → List Char → Option (String × List Char)
  | 0, _, _ => none
  | _ + 1, _, [] => none
  | fuel + 1, acc, c :: rest =>
    if c == '"' then
      some (⟨acc.reverse⟩, rest)
    else if c == '\\' then
      match rest with
      | [] => none
      | e :: rest' =>
        if e == '"' then parseStringBody fuel ('"' :: acc) rest'
        else if e == '\\' then parseStringBody fuel ('\\' :: acc) rest'
        else if e == '/' then parseStringBody fuel ('/' :: acc) rest'
        else if e == 'b' then parseStringBody fuel ('\x08' :: acc) rest'
        else if e == 'f' then parseStringBody fuel ('\x0c' :: acc) rest'
        else if e == 'n' then parseStringBody fuel ('\n' :: acc) rest'
        else if e == 'r' then parseStringBody fuel ('\r' :: acc) rest'
        else if e == 't' then parseStringBody fuel ('\t' :: acc) rest'
        else if e == 'u' then
          match rest' with
          | h1 :: h2 :: h3 :: h4 :: rest'' =>
            match hexDigitVal h1, hexDigitVal h2, hexDigitVal h3, hexDigitVal h4 with
            | some a, some b, some c2, some d =>
              parseStringBody fuel
                (Char.ofNat (a * 4096 + b * 256 + c2 * 16 + d) :: acc) rest''
            | _, _, _, _ => none
          | _ => none
        else none
    else if c.toNat < 0x20 then
      none
    else
      parseStringBody fuel (c :: acc) rest

/-- Parse a JSON number (RFC 8259 grammar), returning its lexeme. -/
def parseNumber (cs : List Char) : Option (String × List Char) :=
  let (sign, cs1) :=
    match cs with
    | '-' :: t => (['-'], t)
    | _ => ([], cs)
  match cs1 with
  | [] => none
  | c :: t =>
    if c == '0' then
      numFracExp (sign ++ ['0']) t
    else if c.isDigit then
      let (ds, rest) := t.span Char.isDigit
      numFracExp (sign ++ c :: ds) rest
    else
      none
where
  numFracExp (intPart : List Char) (cs : List Char) : Option (String × List Char) :=
    let (fracPart, cs2) :=
      match cs with
      | '.' :: t =>
        let (ds, rest) := t.span Char.isDigit
        if ds.isEmpty then (none, cs) else (some ('.' :: ds), rest)
      | _ => (none, cs)
    match fracPart, cs with
    | none, '.' :: _ => none
    | _, _ =>
      let fracChars := fracPart.getD []
      match cs2 with
      | e :: t =>
        if e == 'e' || e == 'E' then
          let (signChars, t2) :=
            match t with
            | s :: t' => if s == '+' || s == '-' then ([s], t') else ([], t)
            | [] => ([], t)
          let (ds, rest) := t2.span Char.isDigit
          if ds.isEmpty then none
          else some (⟨intPart ++ fracChars ++ e :: signChars ++ ds⟩, rest)
        else
          some (⟨intPart ++ fracChars⟩, cs2)
      | [] => some (⟨intPart ++ fracChars⟩, cs2)

mutual

/-- Parse one JSON value (fuel-based recursive descent). -/
def parseValue : Nat → List Char → Option (Json × List Char)
  | 0, _ => none
  | fuel + 1, cs =>
    match skipWs cs with
    | [] => none
    | c :: rest =>
      if c == '"' then
        match parseStringBody (rest.length + 1) [] rest with
        | some (s, r) => some (Json.str s, r)
        | none => none
      else if c == '{' then
        match skipWs rest with
        | '}' :: r => some (Json.obj [], r)
        | cs' =>
          match parseMembers fuel cs' with
          | some (ms, r) => some (Json.obj ms, r)
          | none => none
      else if c == '[' then
        match skipWs rest with
        | ']' :: r => some (Json.arr [], r)
        | cs' =>
          match parseElems fuel cs' with
          | some (es, r) => some (Json.arr es, r)
          | none => none
      else if c == 't' then
        match rest with
        | 'r' :: 'u' :: 'e' :: r => some (Json.bool true, r)
        | _ => none
      else if c == 'f' then
        match rest with
        | 'a' :: 'l' :: 's' :: 'e' :: r => some (Json.bool false, r)
        | _ => none
      else if c == 'n' then
        match rest with
        | 'u' :: 'l' :: 'l' :: r => some (Json.null, r)
        | _ => none
      else
        match parseNumber (c :: rest) with
        | some (lex, r) => some (Json.num lex, r)
        | none => none

/-- Parse the members of a JSON object after `{` (at least one member). -/
def parseMembers : Nat → List Char → Option (List (String × Json) × List Char)
  | 0, _ => none
  | fuel + 1, cs =>
    match skipWs cs with
    | '"' :: rest =>
      match parseStringBody (rest.length + 1) [] rest with
      | none => none
      | some (k, r1) =>
        match skipWs r1 with
        | ':' :: r2 =>
          match parseValue fuel r2 with
          | none => none
          | some (v, r3) =>
            match skipWs r3 with
            | ',' :: r4 =>
              match parseMembers fuel r4 with
              | some (ms, r) => some ((k, v) :: ms, r)
              | none => none
            | '}' :: r4 => some ([(k, v)], r4)
            | _ => none
        | _ => none
    | _ => none

/-- Parse the elements of a JSON array after `[` (at least one element). -/
def parseElems : Nat → List Char → Option (List Json × List Char)
  | 0, _ => none
  | fuel + 1, cs =>
    match parseValue fuel cs with
    | none => none
    | some (v, r1) =>
      match skipWs r1 with
      | ',' :: r2 =>
        match parseElems fuel r2 with
        | some (es, r) => some (v :: es, r)
        | none => none
      | ']' :: r2 => some ([v], r2)
      | _ => none

end

/-- Parse a complete JSON document: one value, with only whitespace
allowed after it (Go's `json.Unmarshal` rejects trailing data). -/
def parseJson (s : String) : Option Json :=
  match parseValue (s.data.length + 1) s.data with
  | some (v, rest) => if (skipWs rest).isEmpty then some v else none
  | none => none

/-- Model of `json.Unmarshal([]byte(s), &m)` with
`m : map[string]interface{}` (compliance.go line 212): a JSON object
decodes to its members; the literal `null` is accepted and zeroes the map
(Go decodes `null` into a map by setting it to nil, with no error); any
other document, and any malformed text, is an error (`none`). -/
def unmarshalObjectFilter (s : String) : Option (List (String × Json)) :=
  match parseJson s with
  | some (Json.obj ms) => some ms
  | some Json.null => some []
  | _ => none

/-- Envelope values: the `interface{}` payloads stored in the headers map
and the parameter array. -/
inductive Value where
  | vStr (s : String)
  | vStrMap (m : List (String × String))
  | vIntMap (m : List (String × Int))
  | vJsonObj (m : List (String × Json))
  | vMap (m : List (String × Value))
deriving Repr

/-- Errors `DoRequest` can return before reaching the network. -/
inductive SLError where
  | clientCreate (service : String)
  | filterEncoding (filter : String)
deriving Repr, DecidableEq

/-- First value bound to a key in an association list (the lookup of the
Go map model). -/
def findHeader (hs : List (String × Value)) (k : String) : Option Value :=
  match hs with
  | [] => none
  | (k', v) :: t => if k' = k then some v else findHeader t k

/-- The `authenticate` header entry (compliance.go lines 183–188). -/
def authenticateHeader (sess : Session) : List (String × Value) :=
  [("authenticate", Value.vStrMap [("username", sess.UserName), ("apiKey", sess.APIKey)])]

/-- The `<service>InitParameters` header entry (compliance.go lines 190–194). -/
def initParametersHeader (service : String) (id : Option Int) : List (String × Value) :=
  match id with
  | some i => [(service ++ "InitParameters", Value.vIntMap [("id", i)])]
  | none => []

/-- The `SoftLayer_ObjectMask` header entry (compliance.go lines 196–202). -/
def objectMaskHeader (mask : String) : List (String × Value) :=
  if mask ≠ "" then
    [("SoftLayer_ObjectMask", Value.vStrMap [("mask", envelopeNormMask mask)])]
  else
    []

/-- The `<service>ObjectFilter` header entry (compliance.go lines
204–217); a filter string that does not decode as an object is the
filter-encoding error. -/
def objectFilterHeader (service : String) (filter : String) :
    Except SLError (List (String × Value)) :=
  if filter ≠ "" then
    match unmarshalObjectFilter filter with
    | none => Except.error (SLError.filterEncoding filter)
    | some objFilter => Except.ok [(service ++ "ObjectFilter", Value.vJsonObj objFilter)]
  else
    Except.ok []

/-- The `resultLimit` header entry (compliance.go lines 219–229). -/
def resultLimitHeader (limit offset : Option Int) : List (String × Value) :=
  match limit with
  | some lim =>
    let off : Int :=
      match offset with
      | some o => o
      | none => 0
    [("resultLimit", Value.vIntMap [("limit", lim), ("offset", off)])]
  | none => []

/-- The headers map built by `DoRequest` (compliance.go lines 183–229),
in the source's insertion order. -/
def buildHeaders (sess : Session) (service : String) (options : Options) :
    Except SLError (List (String × Value)) :=
  match objectFilterHeader service options.Filter with
  | Except.error e => Except.error e
  | Except.ok fh =>
    Except.ok (authenticateHeader sess
      ++ initParametersHeader service options.Id
      ++ objectMaskHeader options.Mask
      ++ fh
      ++ resultLimitHeader options.Limit options.Offset)

/-- Model of an `xmlrpc.Client`: the configuration `xmlrpc.NewClient` is
called with (compliance.go lines 167–171): the URL
`<endpoint>/<service>`, whether the debug round tripper was installed,
and the timeout in nanoseconds. -/
structure XmlRpcClient where
  url : String
  debug : Bool
  timeout : Int
deriving Repr, DecidableEq

/-- Model of the `XmlRpcTransport` struct (its `Timeout` field, in
nanoseconds). -/
structure XmlRpcTransport where
  Timeout : Int
deriving Repr, DecidableEq

/-- `DefaultXmlRpcTimeout = time.Second * 30` (compliance.go line 141),
in nanoseconds. -/
def DefaultXmlRpcTimeout : Int := 30 * 1000000000

/-- The pool `xmlRpcClients : map[string]*xmlrpc.Client` as an explicit
value. -/
abbrev Pool := List (String × XmlRpcClient)

/-- Lookup in the pool (`xmlRpcClients[service]`). -/
def Pool.find (pool : Pool) (service : String) : Option XmlRpcClient :=
  match pool with
  | [] => none
  | (k, c) :: t => if k = service then some c else Pool.find t service

/-- Record of the one `client.Call(method, params, pResult)` performed at
the end of `DoRequest` (compliance.go line 242). -/
structure CallRecord where
  client : XmlRpcClient
  method : String
  params : List Value
deriving Repr

/-- The part of `DoRequest` after the client has been obtained
(compliance.go lines 183–242): build the headers, then perform
`client.Call(method, params, pResult)` with the headers map as the first
parameter and the caller's arguments appended in order. -/
def dispatchCall (sess : Session) (service : String) (method : String)
    (args : List Value) (options : Options) (client : XmlRpcClient) (pool : Pool) :
    Except SLError CallRecord × Pool :=
  match buildHeaders sess service options with
  | Except.error e => (Except.error e, pool)
  | Except.ok headers =>
    let params := Value.vMap [("headers", Value.vMap headers)] :: args
    (Except.ok { client := client, method := method, params := params }, pool)

/-- Model of `XmlRpcTransport.DoRequest` (compliance.go lines 144–243).
`newClientOk url` says whether `xmlrpc.NewClient` succeeds for `url`.
Returns the result (the performed call, or the error returned before any
network activity) together with the updated client pool. -/
def DoRequest (newClientOk : String → Bool) (x : XmlRpcTransport) (pool : Pool)
    (sess : Session) (service : String) (method : String)
    (args : List Value) (options : Options) :
    Except SLError CallRecord × Pool :=
  match Pool.find pool service with
  | some client => dispatchCall sess service method args options client pool
  | none =>
    let timeout := if x.Timeout ≠ 0 then x.Timeout else DefaultXmlRpcTimeout
    let url := sess.Endpoint ++ "/" ++ service
    if newClientOk url then
      let client : XmlRpcClient := { url := url, debug := sess.Debug, timeout := timeout }
      dispatchCall sess service method args options client (pool ++ [(service, client)])
    else
      (Except.error (SLError.clientCreate service), pool)

/-!
Helper lemmas.
-/

theorem string_data_append (s t : String) : (s ++ t).data = s.data ++ t.data :=
  rfl

theorem startsWithAux_self_append (p t : List Char) : startsWithAux p (p ++ t) = true := by
  induction p with
  | nil => rfl
  | cons c cs ih => simp [startsWithAux, ih]

theorem goHasPre_wrap (m : String) : goHasPre ("mask[" ++ m ++ "]") "mask[" = true := by
  show startsWithAux "mask[".data ("mask[" ++ (m ++ "]")).data = true
  rw [string_data_append]
  exact startsWithAux_self_append _ _

theorem wrap_ne_empty (m : String) : ("mask[" ++ m ++ "]") ≠ "" := by
  intro h
  have h2 : ("mask[" ++ m).data ++ "]".data = "".data := by
    rw [← string_data_append]
    exact congrArg String.data h
  have h3 : "]".data = ([] : List Char) := (List.append_eq_nil.mp h2).2
  exact absurd h3 (by decide)

theorem append_ne_of_getLast (s t u : String) (h1 : t.data ≠ [])
    (h2 : t.data.getLast? ≠ u.data.getLast?) : s ++ t ≠ u := by
  intro he
  apply h2
  have h3 : (s ++ t).data = u.data := congrArg String.data he
  rw [string_data_append] at h3
  rw [← h3, List.getLast?_append_of_ne_nil _ h1]

theorem append_ne_append_of_getLast (s t s' t' : String) (h1 : t.data ≠ [])
    (h1' : t'.data ≠ []) (h2 : t.data.getLast? ≠ t'.data.getLast?) :
    s ++ t ≠ s' ++ t' := by
  intro he
  apply h2
  have h3 : (s ++ t).data = (s' ++ t').data := congrArg String.data he
  rw [string_data_append, string_data_append] at h3
  rw [← List.getLast?_append_of_ne_nil s.data h1, h3,
    List.getLast?_append_of_ne_nil _ h1']

theorem initKey_ne_auth (service : String) : service ++ "InitParameters" ≠ "authenticate" :=
  append_ne_of_getLast _ _ _ (by decide) (by decide)

theorem initKey_ne_objectMask (service : String) :
    service ++ "InitParameters" ≠ "SoftLayer_ObjectMask" :=
  append_ne_of_getLast _ _ _ (by decide) (by decide)

theorem initKey_ne_resultLimit (service : String) :
    service ++ "InitParameters" ≠ "resultLimit" :=
  append_ne_of_getLast _ _ _ (by decide) (by decide)

theorem filterKey_ne_auth (service : String) : service ++ "ObjectFilter" ≠ "authenticate" :=
  append_ne_of_getLast _ _ _ (by decide) (by decide)

theorem filterKey_ne_objectMask (service : String) :
    service ++ "ObjectFilter" ≠ "SoftLayer_ObjectMask" :=
  append_ne_of_getLast _ _ _ (by decide) (by decide)

theorem filterKey_ne_resultLimit (service : String) :
    service ++ "ObjectFilter" ≠ "resultLimit" :=
  append_ne_of_getLast _ _ _ (by decide) (by decide)

theorem filterKey_ne_initKey (service service' : String) :
    service ++ "ObjectFilter" ≠ service' ++ "InitParameters" :=
  append_ne_append_of_getLast _ _ _ _ (by decide) (by decide) (by decide)

theorem envelopeNormMask_of_pre (m : String) (h : goHasPre m "mask[" = true) :
    envelopeNormMask m = m := by
  simp [envelopeNormMask, h]

theorem envelopeNormMask_of_not_pre (m : String) (h : goHasPre m "mask[" = false) :
    envelopeNormMask m = "mask[" ++ m ++ "]" := by
  simp [envelopeNormMask, h]

theorem builderNormMask_of_pre (m : String) (h : goHasPre m "mask[" = true) :
    builderNormMask m = m := by
  simp [builderNormMask, h]

theorem builderNormMask_of_no_bracket (m : String) (h : goContainsChar m '[' = false) :
    builderNormMask m = m := by
  simp [builderNormMask, h]

theorem builderNormMask_wrap (m : String) (h1 : goHasPre m "mask[" = false)
    (h2 : goContainsChar m '[' = true) : builderNormMask m = "mask[" ++ m ++ "]" := by
  simp [builderNormMask, h1, h2]

theorem envelopeNormMask_idem (m : String) :
    envelopeNormMask (envelopeNormMask m) = envelopeNormMask m := by
  by_cases h : goHasPre m "mask[" = true
  · rw [envelopeNormMask_of_pre m h, envelopeNormMask_of_pre m h]
  · have h' : goHasPre m "mask[" = false := Bool.eq_false_iff.mpr h
    rw [envelopeNormMask_of_not_pre m h', envelopeNormMask_of_pre _ (goHasPre_wrap m)]

theorem builderNormMask_idem (m : String) :
    builderNormMask (builderNormMask m) = builderNormMask m := by
  by_cases h : goHasPre m "mask[" = true
  · rw [builderNormMask_of_pre m h, builderNormMask_of_pre m h]
  · have h' : goHasPre m "mask[" = false := Bool.eq_false_iff.mpr h
    by_cases hb : goContainsChar m '[' = true
    · rw [builderNormMask_wrap m h' hb, builderNormMask_of_pre _ (goHasPre_wrap m)]
    · have hb' : goContainsChar m '[' = false := Bool.eq_false_iff.mpr hb
      rw [builderNormMask_of_no_bracket m hb', builderNormMask_of_no_bracket m hb']

theorem builderNormMask_ne_empty (m : String) (h : m ≠ "") : builderNormMask m ≠ "" := by
  unfold builderNormMask
  split
  · exact wrap_ne_empty m
  · exact h

theorem findHeader_cons (k' : String) (v : Value) (t : List (String × Value)) (k : String) :
    findHeader ((k', v) :: t) k = if k' = k then some v else findHeader t k :=
  rfl

theorem findHeader_append_of_none (l1 l2 : List (String × Value)) (k : String)
    (h : findHeader l1 k = none) : findHeader (l1 ++ l2) k = findHeader l2 k := by
  induction l1 with
  | nil => rfl
  | cons p t ih =>
    obtain ⟨k', v⟩ := p
    by_cases hk : k' = k
    · rw [findHeader_cons, if_pos hk] at h
      exact Option.noConfusion h
    · rw [findHeader_cons, if_neg hk] at h
      rw [List.cons_append, findHeader_cons, if_neg hk]
      exact ih h

theorem findHeader_append_of_some (l1 l2 : List (String × Value)) (k : String) (v : Value)
    (h : findHeader l1 k = some v) : findHeader (l1 ++ l2) k = some v := by
  induction l1 with
  | nil => exact Option.noConfusion h
  | cons p t ih =>
    obtain ⟨k', w⟩ := p
    by_cases hk : k' = k
    · rw [findHeader_cons, if_pos hk] at h
      rw [List.cons_append, findHeader_cons, if_pos hk]
      exact h
    · rw [findHeader_cons, if_neg hk] at h
      rw [List.cons_append, findHeader_cons, if_neg hk]
      exact ih h

theorem findHeader_auth_self (sess : Session) :
    findHeader (authenticateHeader sess) "authenticate"
      = some (Value.vStrMap [("username", sess.UserName), ("apiKey", sess.APIKey)]) := by
  rw [authenticateHeader, findHeader_cons, if_pos rfl]

theorem findHeader_auth_other (sess : Session) (k : String) (hk : "authenticate" ≠ k) :
    findHeader (authenticateHeader sess) k = none := by
  rw [authenticateHeader, findHeader_cons, if_neg hk]
  rfl

theorem findHeader_init_self (service : String) (i : Int) :
    findHeader (initParametersHeader service (some i)) (service ++ "InitParameters")
      = some (Value.vIntMap [("id", i)]) := by
  rw [initParametersHeader, findHeader_cons, if_pos rfl]

theorem findHeader_init_other (service : String) (id : Option Int) (k : String)
    (hk : service ++ "InitParameters" ≠ k) :
    findHeader (initParametersHeader service id) k = none := by
  cases id with
  | none => rfl
  | some i => rw [initParametersHeader, findHeader_cons, if_neg hk]; rfl

theorem findHeader_init_absent (service : String) (k : String) :
    findHeader (initParametersHeader service none) k = none :=
  rfl

theorem findHeader_mask_self (mask : String) (h : mask ≠ "") :
    findHeader (objectMaskHeader mask) "SoftLayer_ObjectMask"
      = some (Value.vStrMap [("mask", envelopeNormMask mask)]) := by
  rw [objectMaskHeader, if_pos h, findHeader_cons, if_pos rfl]

theorem findHeader_mask_other (mask : String) (k : String)
    (hk : "SoftLayer_ObjectMask" ≠ k) :
    findHeader (objectMaskHeader mask) k = none := by
  rw [objectMaskHeader]
  split
  · rw [findHeader_cons, if_neg hk]; rfl
  · rfl

theorem findHeader_filter_other (service filter : String) (fh : List (String × Value))
    (h : objectFilterHeader service filter = Except.ok fh) (k : String)
    (hk : service ++ "ObjectFilter" ≠ k) : findHeader fh k = none := by
  rw [objectFilterHeader] at h
  split at h
  · cases hu : unmarshalObjectFilter filter <;> rw [hu] at h
    · exact Except.noConfusion h
    · cases h
      rw [findHeader_cons, if_neg hk]
      rfl
  · cases h
    rfl

theorem findHeader_rl_self (lim : Int) (offset : Option Int) :
    findHeader (resultLimitHeader (some lim) offset) "resultLimit"
      = some (Value.vIntMap [("limit", lim),
          ("offset", match offset with | some o => o | none => 0)]) := by
  cases offset with
  | none => rfl
  | some o => rfl

theorem findHeader_rl_absent (offset : Option Int) (k : String) :
    findHeader (resultLimitHeader none offset) k = none :=
  rfl

theorem buildHeaders_ok_shape (sess : Session) (service : String) (o : Options)
    (hs : List (String × Value)) (h : buildHeaders sess service o = Except.ok hs) :
    ∃ fh, objectFilterHeader service o.Filter = Except.ok fh
      ∧ hs = authenticateHeader sess ++ initParametersHeader service o.Id
          ++ objectMaskHeader o.Mask ++ fh ++ resultLimitHeader o.Limit o.Offset := by
  rw [buildHeaders] at h
  cases hf : objectFilterHeader service o.Filter <;> rw [hf] at h
  · exact Except.noConfusion h
  · cases h
    exact ⟨_, rfl, rfl⟩

theorem buildHeaders_filter_error (sess : Session) (service : String) (o : Options)
    (hfil : o.Filter ≠ "") (hbad : unmarshalObjectFilter o.Filter = none) :
    buildHeaders sess service o = Except.error (SLError.filterEncoding o.Filter) := by
  rw [buildHeaders, objectFilterHeader, if_pos hfil, hbad]

theorem dispatchCall_pool (sess : Session) (service method : String) (args : List Value)
    (options : Options) (client : XmlRpcClient) (pool : Pool) :
    (dispatchCall sess service method args options client pool).2 = pool := by
  rw [dispatchCall]
  cases hb : buildHeaders sess service options <;> rfl

theorem dispatchCall_ok (sess : Session) (service method : String) (args : List Value)
    (options : Options) (client : XmlRpcClient) (pool : Pool) (rec : CallRecord)
    (pool' : Pool)
    (h : dispatchCall sess service method args options client pool = (Except.ok rec, pool')) :
    ∃ hs, buildHeaders sess service options = Except.ok hs
      ∧ rec = ⟨client, method, Value.vMap [("headers", Value.vMap hs)] :: args⟩
      ∧ pool' = pool := by
  rw [dispatchCall] at h
  cases hb : buildHeaders sess service options <;> rw [hb] at h
  · exact Except.noConfusion (congrArg Prod.fst h)
  · refine ⟨_, rfl, ?_, ?_⟩
    · have h1 := congrArg Prod.fst h
      simp only at h1
      cases h1
      rfl
    · exact (congrArg Prod.snd h).symm

theorem dispatchCall_error (sess : Session) (service method : String) (args : List Value)
    (options : Options) (client : XmlRpcClient) (pool : Pool) (e : SLError)
    (h : buildHeaders sess service options = Except.error e) :
    dispatchCall sess service method args options client pool = (Except.error e, pool) := by
  rw [dispatchCall, h]

theorem doRequest_filter_encoding (newClientOk : String → Bool) (x : XmlRpcTransport)
    (pool : Pool) (sess : Session) (service method : String) (args : List Value)
    (options : Options) (hfil : options.Filter ≠ "")
    (hbad : unmarshalObjectFilter options.Filter = none)
    (hcreate : Pool.find pool service ≠ none
      ∨ newClientOk (sess.Endpoint ++ "/" ++ service) = true) :
    (DoRequest newClientOk x pool sess service method args options).1
      = Except.error (SLError.filterEncoding options.Filter) := by
  have hb := buildHeaders_filter_error sess service options hfil hbad
  cases hp : Pool.find pool service with
  | some client =>
    simp only [DoRequest, hp]
    rw [dispatchCall_error sess service method args options client pool _ hb]
  | none =>
    cases hcreate with
    | inl h => exact absurd hp h
    | inr h =>
      simp only [DoRequest, hp, h, if_true]
      rw [dispatchCall_error sess service method args options _ _ _ hb]

theorem buildHeaders_mask_only (sess : Session) (service m : String) (hm : m ≠ "") :
    buildHeaders sess service ⟨none, m, "", none, none⟩
      = Except.ok (authenticateHeader sess
          ++ [("SoftLayer_ObjectMask", Value.vStrMap [("mask", envelopeNormMask m)])]) := by
  have h2 : objectMaskHeader m
      = [("SoftLayer_ObjectMask", Value.vStrMap [("mask", envelopeNormMask m)])] := by
    rw [objectMaskHeader, if_pos hm]
  show Except.ok (authenticateHeader sess ++ initParametersHeader service none
      ++ objectMaskHeader m ++ [] ++ resultLimitHeader none none) = _
  rw [h2]
  simp [initParametersHeader, resultLimitHeader]

/-- C1 (amended): the builder `Mask` followed by envelope building wraps a
bracket-carrying, unprefixed mask exactly once, as `mask[<original>]`, and
leaves an already-prefixed mask unchanged; each of the two normalization
functions is idempotent, and they agree on every input that has a bracket
or the canonical prefix.  However a non-empty, bracket-free, unprefixed
mask is passed through by the builder and then wrapped by the envelope
side (the two normalizations are not equal on such inputs), so the
pipeline does not leave every bracket-free mask unchanged. -/
theorem c1_mask_normalization_amended (sess : Session) (sessOpt : Option Session)
    (service m : String) :
    (goContainsChar m '[' = true → goHasPre m "mask[" = false →
      envelopeNormMask (builderNormMask m) = "mask[" ++ m ++ "]")
    ∧ (goHasPre m "mask[" = true → envelopeNormMask (builderNormMask m) = m)
    ∧ (goContainsChar m '[' = false → goHasPre m "mask[" = false →
      builderNormMask m = m
        ∧ envelopeNormMask (builderNormMask m) = "mask[" ++ m ++ "]")
    ∧ envelopeNormMask (envelopeNormMask m) = envelopeNormMask m
    ∧ builderNormMask (builderNormMask m) = builderNormMask m
    ∧ ((goContainsChar m '[' = true ∨ goHasPre m "mask[" = true) →
      builderNormMask m = envelopeNormMask m)
    ∧ (m ≠ "" →
      buildHeaders sess service ((GetComplianceReportTypeService sessOpt).Mask m).Options
        = Except.ok (authenticateHeader sess
            ++ [("SoftLayer_ObjectMask",
                Value.vStrMap [("mask", envelopeNormMask (builderNormMask m))])])) := by
  refine ⟨?_, ?_, ?_, envelopeNormMask_idem m, builderNormMask_idem m, ?_, ?_⟩
  · intro hb hp
    rw [builderNormMask_wrap m hp hb, envelopeNormMask_of_pre _ (goHasPre_wrap m)]
  · intro hp
    rw [builderNormMask_of_pre m hp, envelopeNormMask_of_pre m hp]
  · intro hb hp
    refine ⟨builderNormMask_of_no_bracket m hb, ?_⟩
    rw [builderNormMask_of_no_bracket m hb, envelopeNormMask_of_not_pre m hp]
  · intro h
    cases h with
    | inl hb =>
      by_cases hp : goHasPre m "mask[" = true
      · rw [builderNormMask_of_pre m hp, envelopeNormMask_of_pre m hp]
      · have hp' := Bool.eq_false_iff.mpr hp
        rw [builderNormMask_wrap m hp' hb, envelopeNormMask_of_not_pre m hp']
    | inr hp =>
      rw [builderNormMask_of_pre m hp, envelopeNormMask_of_pre m hp]
  · intro hm
    exact buildHeaders_mask_only sess service (builderNormMask m)
      (builderNormMask_ne_empty m hm)

/-- C1 witness: for the bracket-carrying, unprefixed mask `a[b`, the
builder-then-envelope pipeline produces exactly `mask[a[b]`. -/
theorem c1_mask_normalization_witness :
    envelopeNormMask (builderNormMask "a[b") = "mask[" ++ "a[b" ++ "]" :=
  (c1_mask_normalization_amended ⟨"e", "u", "k", false⟩ none "Widget" "a[b").1
    (by decide) (by decide)

/-- C1 counterexample: the mask `id` contains no bracket and lacks the
prefix; the builder passes it through but the envelope side wraps it, so
the pipeline does not leave it unchanged, and the builder-side and
envelope-side normalization functions differ at this input. -/
theorem c1_counterexample :
    goContainsChar "id" '[' = false
    ∧ builderNormMask "id" = "id"
    ∧ envelopeNormMask (builderNormMask "id") = "mask[id]"
    ∧ builderNormMask "id" ≠ envelopeNormMask "id"
    ∧ buildHeaders ⟨"e", "u", "k", false⟩ "Widget"
        ((GetComplianceReportTypeService none).Mask "id").Options
      = Except.ok (authenticateHeader ⟨"e", "u", "k", false⟩
          ++ [("SoftLayer_ObjectMask", Value.vStrMap [("mask", "mask[id]")])]) := by
  refine ⟨by decide, by decide, by decide, by decide, ?_⟩
  rfl

/-- C2: when `limit` is set and `offset` is unset the envelope's
`resultLimit` entry carries offset 0; when both are set both values pass
through unchanged; when `limit` is unset there is no `resultLimit` entry
even if `offset` is set. -/
theorem c2_resultLimit (sess : Session) (service : String) (o : Options)
    (hs : List (String × Value)) (h : buildHeaders sess service o = Except.ok hs) :
    (∀ lim : Int, o.Limit = some lim → o.Offset = none →
      findHeader hs "resultLimit" = some (Value.vIntMap [("limit", lim), ("offset", 0)]))
    ∧ (∀ lim off : Int, o.Limit = some lim → o.Offset = some off →
      findHeader hs "resultLimit" = some (Value.vIntMap [("limit", lim), ("offset", off)]))
    ∧ (o.Limit = none → findHeader hs "resultLimit" = none) := by
  obtain ⟨fh, hf, rfl⟩ := buildHeaders_ok_shape sess service o hs h
  have h1 : findHeader (authenticateHeader sess) "resultLimit" = none :=
    findHeader_auth_other sess _ (by decide)
  have h2 : findHeader (authenticateHeader sess
      ++ initParametersHeader service o.Id) "resultLimit" = none := by
    rw [findHeader_append_of_none _ _ _ h1]
    exact findHeader_init_other service o.Id _ (initKey_ne_resultLimit service)
  have h3 : findHeader (authenticateHeader sess ++ initParametersHeader service o.Id
      ++ objectMaskHeader o.Mask) "resultLimit" = none := by
    rw [findHeader_append_of_none _ _ _ h2]
    exact findHeader_mask_other o.Mask _ (by decide)
  have h4 : findHeader (authenticateHeader sess ++ initParametersHeader service o.Id
      ++ objectMaskHeader o.Mask ++ fh) "resultLimit" = none := by
    rw [findHeader_append_of_none _ _ _ h3]
    exact findHeader_filter_other service o.Filter fh hf _ (filterKey_ne_resultLimit service)
  refine ⟨?_, ?_, ?_⟩
  · intro lim hlim hoff
    rw [findHeader_append_of_none _ _ _ h4, hlim, hoff]
    exact findHeader_rl_self lim none
  · intro lim off hlim hoff
    rw [findHeader_append_of_none _ _ _ h4, hlim, hoff]
    exact findHeader_rl_self lim (some off)
  · intro hlim
    rw [findHeader_append_of_none _ _ _ h4, hlim]
    exact findHeader_rl_absent o.Offset _

/-- C2 witness: with limit 5 set and offset unset, the built envelope's
`resultLimit` entry is `{limit: 5, offset: 0}`. -/
theorem c2_resultLimit_witness :
    findHeader (authenticateHeader ⟨"e", "u", "k", false⟩
        ++ initParametersHeader "S" none ++ objectMaskHeader ""
        ++ [] ++ resultLimitHeader (some 5) none) "resultLimit"
      = some (Value.vIntMap [("limit", 5), ("offset", 0)]) :=
  (c2_resultLimit ⟨"e", "u", "k", false⟩ "S" ⟨none, "", "", some 5, none⟩ _ rfl).1
    5 rfl rfl

/-- C3: with `id` set the envelope's header map binds the key
`<service> ++ "InitParameters"` to `{id: <value>}`; with `id` unset that
key is absent. -/
theorem c3_initParameters (sess : Session) (service : String) (o : Options)
    (hs : List (String × Value)) (h : buildHeaders sess service o = Except.ok hs) :
    (∀ i : Int, o.Id = some i →
      findHeader hs (service ++ "InitParameters") = some (Value.vIntMap [("id", i)]))
    ∧ (o.Id = none → findHeader hs (service ++ "InitParameters") = none) := by
  obtain ⟨fh, hf, rfl⟩ := buildHeaders_ok_shape sess service o hs h
  have h1 : findHeader (authenticateHeader sess) (service ++ "InitParameters") = none :=
    findHeader_auth_other sess _ (Ne.symm (initKey_ne_auth service))
  constructor
  · intro i hid
    have h2 : findHeader (authenticateHeader sess
        ++ initParametersHeader service o.Id) (service ++ "InitParameters")
        = some (Value.vIntMap [("id", i)]) := by
      rw [findHeader_append_of_none _ _ _ h1, hid]
      exact findHeader_init_self service i
    rw [findHeader_append_of_some _ _ _ _
      (findHeader_append_of_some _ _ _ _ (findHeader_append_of_some _ _ _ _ h2))]
  · intro hid
    have h2 : findHeader (authenticateHeader sess
        ++ initParametersHeader service o.Id) (service ++ "InitParameters") = none := by
      rw [findHeader_append_of_none _ _ _ h1, hid]
      exact findHeader_init_absent service _
    have h3 : findHeader (authenticateHeader sess ++ initParametersHeader service o.Id
        ++ objectMaskHeader o.Mask) (service ++ "InitParameters") = none := by
      rw [findHeader_append_of_none _ _ _ h2]
      exact findHeader_mask_other o.Mask _ (Ne.symm (initKey_ne_objectMask service))
    have h4 : findHeader (authenticateHeader sess ++ initParametersHeader service o.Id
        ++ objectMaskHeader o.Mask ++ fh) (service ++ "InitParameters") = none := by
      rw [findHeader_append_of_none _ _ _ h3]
      exact findHeader_filter_other service o.Filter fh hf _
        (filterKey_ne_initKey service service)
    rw [findHeader_append_of_none _ _ _ h4]
    cases hl : o.Limit with
    | none => exact findHeader_rl_absent o.Offset _
    | some lim =>
      cases ho : o.Offset with
      | none =>
        rw [show resultLimitHeader (some lim) none
            = [("resultLimit", Value.vIntMap [("limit", lim), ("offset", 0)])] from rfl,
          findHeader_cons, if_neg (Ne.symm (initKey_ne_resultLimit service))]
        rfl
      | some off =>
        rw [show resultLimitHeader (some lim) (some off)
            = [("resultLimit", Value.vIntMap [("limit", lim), ("offset", off)])] from rfl,
          findHeader_cons, if_neg (Ne.symm (initKey_ne_resultLimit service))]
        rfl

/-- C3 witness: for service `Widget` with id 42 set, the header map binds
`WidgetInitParameters` to `{id: 42}`. -/
theorem c3_initParameters_witness :
    findHeader (authenticateHeader ⟨"e", "u", "k", false⟩
        ++ initParametersHeader "Widget" (some 42) ++ objectMaskHeader ""
        ++ [] ++ resultLimitHeader none none) ("Widget" ++ "InitParameters")
      = some (Value.vIntMap [("id", 42)]) :=
  (c3_initParameters ⟨"e", "u", "k", false⟩ "Widget" ⟨some 42, "", "", none, none⟩
    _ rfl).1 42 rfl

theorem buildHeaders_auth (sess : Session) (service : String) (o : Options)
    (hs : List (String × Value)) (h : buildHeaders sess service o = Except.ok hs) :
    findHeader hs "authenticate"
      = some (Value.vStrMap [("username", sess.UserName), ("apiKey", sess.APIKey)]) := by
  obtain ⟨fh, hf, rfl⟩ := buildHeaders_ok_shape sess service o hs h
  exact findHeader_append_of_some _ _ _ _ (findHeader_append_of_some _ _ _ _
    (findHeader_append_of_some _ _ _ _ (findHeader_append_of_some _ _ _ _
      (findHeader_auth_self sess))))

theorem dispatchCall_fst_ok (sess : Session) (service method : String) (args : List Value)
    (options : Options) (client : XmlRpcClient) (pool : Pool) (rec : CallRecord)
    (h : (dispatchCall sess service method args options client pool).1 = Except.ok rec) :
    ∃ hs, buildHeaders sess service options = Except.ok hs
      ∧ rec = ⟨client, method, Value.vMap [("headers", Value.vMap hs)] :: args⟩ := by
  cases hb : buildHeaders sess service options with
  | error e =>
    simp only [dispatchCall, hb] at h
    exact Except.noConfusion h
  | ok hs =>
    simp only [dispatchCall, hb] at h
    injection h with h2
    exact ⟨hs, rfl, h2.symm⟩

/-- C4: the outbound parameter sequence starts with the single-key map
`{headers: <header map>}`, the header map always binds `authenticate` to
`{username, apiKey}` from the Session, and the caller's arguments follow
in order, unmodified; and for Session{userName="u", apiKey="k"},
service "Widget", options {id: 42} and no arguments, the first (and only)
parameter is exactly
`{headers: {authenticate: {username: "u", apiKey: "k"},
WidgetInitParameters: {id: 42}}}`. -/
theorem c4_params (newClientOk : String → Bool) (x : XmlRpcTransport) (pool : Pool)
    (sess : Session) (service method : String) (args : List Value) (options : Options)
    (rec : CallRecord) (pool' : Pool)
    (h : DoRequest newClientOk x pool sess service method args options
      = (Except.ok rec, pool')) :
    (∃ hs, buildHeaders sess service options = Except.ok hs
      ∧ rec.params = Value.vMap [("headers", Value.vMap hs)] :: args
      ∧ findHeader hs "authenticate"
          = some (Value.vStrMap [("username", sess.UserName), ("apiKey", sess.APIKey)]))
    ∧ (DoRequest (fun _ => true) ⟨0⟩ [] ⟨"https://api.example.com", "u", "k", false⟩
        "Widget" "getObject" [] ⟨some 42, "", "", none, none⟩).1
      = Except.ok ⟨⟨"https://api.example.com/Widget", false, 30000000000⟩, "getObject",
          [Value.vMap [("headers", Value.vMap
            [("authenticate", Value.vStrMap [("username", "u"), ("apiKey", "k")]),
             ("WidgetInitParameters", Value.vIntMap [("id", 42)])])]]⟩ := by
  refine ⟨?_, rfl⟩
  cases hp : Pool.find pool service with
  | some client =>
    have hD : dispatchCall sess service method args options client pool
        = (Except.ok rec, pool') := by
      rw [← h]
      simp only [DoRequest, hp]
    obtain ⟨hs, hbh, hrec, -⟩ := dispatchCall_ok _ _ _ _ _ _ _ _ _ hD
    exact ⟨hs, hbh, by rw [hrec], buildHeaders_auth sess service options hs hbh⟩
  | none =>
    cases hn : newClientOk (sess.Endpoint ++ "/" ++ service) with
    | true =>
      have hD : dispatchCall sess service method args options
          ⟨sess.Endpoint ++ "/" ++ service, sess.Debug,
            if x.Timeout ≠ 0 then x.Timeout else DefaultXmlRpcTimeout⟩
          (pool ++ [(service, ⟨sess.Endpoint ++ "/" ++ service, sess.Debug,
            if x.Timeout ≠ 0 then x.Timeout else DefaultXmlRpcTimeout⟩)])
          = (Except.ok rec, pool') := by
        rw [← h]
        simp only [DoRequest, hp, hn, if_true]
      obtain ⟨hs, hbh, hrec, -⟩ := dispatchCall_ok _ _ _ _ _ _ _ _ _ hD
      exact ⟨hs, hbh, by rw [hrec], buildHeaders_auth sess service options hs hbh⟩
    | false =>
      exfalso
      simp [DoRequest, hp, hn] at h

/-- C4 witness: a pooled client for service `S` and empty options; the
single outbound parameter is the headers map, which binds `authenticate`
to the session credentials. -/
theorem c4_params_witness :
    ∃ hs, buildHeaders ⟨"e", "u", "k", false⟩ "S" Options.zero = Except.ok hs
      ∧ (⟨⟨"e/S", true, 7⟩, "m",
            [Value.vMap [("headers", Value.vMap
              [("authenticate", Value.vStrMap [("username", "u"), ("apiKey", "k")])])]]⟩
          : CallRecord).params
          = Value.vMap [("headers", Value.vMap hs)] :: ([] : List Value)
      ∧ findHeader hs "authenticate"
          = some (Value.vStrMap [("username", "u"), ("apiKey", "k")]) :=
  (c4_params (fun _ => true) ⟨0⟩ [("S", ⟨"e/S", true, 7⟩)] ⟨"e", "u", "k", false⟩
    "S" "m" [] Options.zero
    ⟨⟨"e/S", true, 7⟩, "m",
      [Value.vMap [("headers", Value.vMap
        [("authenticate", Value.vStrMap [("username", "u"), ("apiKey", "k")])])]]⟩
    [("S", ⟨"e/S", true, 7⟩)] rfl).1

/-- C5: a non-empty filter string that does not decode as a JSON object
filter makes `DoRequest` return the filter-encoding error, and no network
call is performed (the result is never an `Except.ok` call record;
`client.Call` is modelled by the `Except.ok` constructor).  The client
for the service must be obtainable (already pooled, or creatable), since
otherwise the earlier client-creation error is returned instead — still
with no network activity. -/
theorem c5_filter_encoding_no_call (newClientOk : String → Bool) (x : XmlRpcTransport)
    (pool : Pool) (sess : Session) (service method : String) (args : List Value)
    (options : Options)
    (hfil : options.Filter ≠ "")
    (hbad : unmarshalObjectFilter options.Filter = none)
    (hcreate : Pool.find pool service ≠ none
      ∨ newClientOk (sess.Endpoint ++ "/" ++ service) = true) :
    (DoRequest newClientOk x pool sess service method args options).1
      = Except.error (SLError.filterEncoding options.Filter)
    ∧ ∀ rec : CallRecord,
        (DoRequest newClientOk x pool sess service method args options).1
          ≠ Except.ok rec := by
  have h := doRequest_filter_encoding newClientOk x pool sess service method args
    options hfil hbad hcreate
  refine ⟨h, ?_⟩
  intro rec hok
  rw [h] at hok
  exact Except.noConfusion hok

/-- C5 witness: the malformed filter string `not json` produces the
filter-encoding error on a fresh pool with a working client constructor. -/
theorem c5_filter_encoding_no_call_witness :
    (DoRequest (fun _ => true) ⟨0⟩ [] ⟨"e", "u", "k", false⟩ "S" "m" []
        ⟨none, "", "not json", none, none⟩).1
      = Except.error (SLError.filterEncoding "not json") :=
  (c5_filter_encoding_no_call (fun _ => true) ⟨0⟩ [] ⟨"e", "u", "k", false⟩ "S" "m" []
    ⟨none, "", "not json", none, none⟩ (by decide) rfl (Or.inr rfl)).1

/-- C6: when the service is not pooled and client construction fails,
`DoRequest` returns the client-creation error and the pool is returned
unchanged — in particular without an entry for the service, so a later
call would attempt creation again. -/
theorem c6_clientCreate_failure (newClientOk : String → Bool) (x : XmlRpcTransport)
    (pool : Pool) (sess : Session) (service method : String) (args : List Value)
    (options : Options)
    (hmiss : Pool.find pool service = none)
    (hfail : newClientOk (sess.Endpoint ++ "/" ++ service) = false) :
    DoRequest newClientOk x pool sess service method args options
      = (Except.error (SLError.clientCreate service), pool)
    ∧ Pool.find ((DoRequest newClientOk x pool sess service method args options).2)
        service = none := by
  have hD : DoRequest newClientOk x pool sess service method args options
      = (Except.error (SLError.clientCreate service), pool) := by
    simp [DoRequest, hmiss, hfail]
  exact ⟨hD, by rw [hD]; exact hmiss⟩

/-- C6 witness: with an always-failing client constructor and an empty
pool, the call errors and the pool stays empty. -/
theorem c6_clientCreate_failure_witness :
    DoRequest (fun _ => false) ⟨0⟩ [] ⟨"e", "u", "k", false⟩ "S" "m" [] Options.zero
      = (Except.error (SLError.clientCreate "S"), []) :=
  (c6_clientCreate_failure (fun _ => false) ⟨0⟩ [] ⟨"e", "u", "k", false⟩ "S" "m" []
    Options.zero rfl rfl).1

/-- C7: on a pool miss with successful construction, the new client is
bound to `<endpoint>/<serviceName>`, carries the transport's nonzero
timeout override or else the 30-second default, and is stored in the
pool under the service name; on a pool hit the existing client is used
and the pool is unchanged, whatever the current Session's endpoint,
debug flag, or transport timeout are. -/
theorem c7_client_pool (newClientOk : String → Bool) (x : XmlRpcTransport) (pool : Pool)
    (sess : Session) (service method : String) (args : List Value) (options : Options) :
    (∀ client, Pool.find pool service = some client →
      (DoRequest newClientOk x pool sess service method args options).2 = pool
      ∧ ∀ rec, (DoRequest newClientOk x pool sess service method args options).1
          = Except.ok rec → rec.client = client)
    ∧ (Pool.find pool service = none →
      newClientOk (sess.Endpoint ++ "/" ++ service) = true →
      (DoRequest newClientOk x pool sess service method args options).2
        = pool ++ [(service, ⟨sess.Endpoint ++ "/" ++ service, sess.Debug,
            if x.Timeout ≠ 0 then x.Timeout else DefaultXmlRpcTimeout⟩)]
      ∧ ∀ rec, (DoRequest newClientOk x pool sess service method args options).1
          = Except.ok rec
          → rec.client = ⟨sess.Endpoint ++ "/" ++ service, sess.Debug,
              if x.Timeout ≠ 0 then x.Timeout else DefaultXmlRpcTimeout⟩)
    ∧ DefaultXmlRpcTimeout = 30 * 1000000000 := by
  refine ⟨?_, ?_, rfl⟩
  · intro client hp
    have hD : DoRequest newClientOk x pool sess service method args options
        = dispatchCall sess service method args options client pool := by
      simp only [DoRequest, hp]
    constructor
    · rw [hD]
      exact dispatchCall_pool sess service method args options client pool
    · intro rec hok
      rw [hD] at hok
      obtain ⟨hs, -, hrec⟩ := dispatchCall_fst_ok _ _ _ _ _ _ _ _ hok
      rw [hrec]
  · intro hp hn
    have hD : DoRequest newClientOk x pool sess service method args options
        = dispatchCall sess service method args options
            ⟨sess.Endpoint ++ "/" ++ service, sess.Debug,
              if x.Timeout ≠ 0 then x.Timeout else DefaultXmlRpcTimeout⟩
            (pool ++ [(service, ⟨sess.Endpoint ++ "/" ++ service, sess.Debug,
              if x.Timeout ≠ 0 then x.Timeout else DefaultXmlRpcTimeout⟩)]) := by
      simp only [DoRequest, hp, hn, if_true]
    constructor
    · rw [hD]
      exact dispatchCall_pool sess service method args options _ _
    · intro rec hok
      rw [hD] at hok
      obtain ⟨hs, -, hrec⟩ := dispatchCall_fst_ok _ _ _ _ _ _ _ _ hok
      rw [hrec]

/-- C7 witness: a pooled client for `S` created under an old endpoint,
debug flag and timeout is reused as-is — the pool after the call is the
same single old entry, although the current Session and transport have
different settings. -/
theorem c7_client_pool_witness :
    (DoRequest (fun _ => true) ⟨99⟩ [("S", ⟨"old/S", true, 7⟩)]
        ⟨"new", "u", "k", false⟩ "S" "m" [] Options.zero).2
      = [("S", ⟨"old/S", true, 7⟩)] :=
  ((c7_client_pool (fun _ => true) ⟨99⟩ [("S", ⟨"old/S", true, 7⟩)]
    ⟨"new", "u", "k", false⟩ "S" "m" [] Options.zero).1 ⟨"old/S", true, 7⟩ rfl).1

/-- C8: every builder setter (`Id`, `Mask`, `Filter`, `Limit`, `Offset`)
sets only its own option field (the mask after its wrap rule) and leaves
every other field of the receiver's value, including the session pointer,
as in the receiver.  The Go methods take the receiver by value, so the
caller's struct is copied and the original is never mutated; the pure
functions here model exactly that copy-on-write behaviour, and the frame
equalities show two values built from a common base cannot observe each
other's settings. -/
theorem c8_setters_frame (r : Compliance_Report_Type) (v : Int) (m f : String) :
    ((r.Id v).Options.Id = some v
      ∧ (r.Id v).Options.Mask = r.Options.Mask
      ∧ (r.Id v).Options.Filter = r.Options.Filter
      ∧ (r.Id v).Options.Limit = r.Options.Limit
      ∧ (r.Id v).Options.Offset = r.Options.Offset
      ∧ (r.Id v).Session = r.Session)
    ∧ ((r.Mask m).Options.Mask = builderNormMask m
      ∧ (r.Mask m).Options.Id = r.Options.Id
      ∧ (r.Mask m).Options.Filter = r.Options.Filter
      ∧ (r.Mask m).Options.Limit = r.Options.Limit
      ∧ (r.Mask m).Options.Offset = r.Options.Offset
      ∧ (r.Mask m).Session = r.Session)
    ∧ ((r.Filter f).Options.Filter = f
      ∧ (r.Filter f).Options.Id = r.Options.Id
      ∧ (r.Filter f).Options.Mask = r.Options.Mask
      ∧ (r.Filter f).Options.Limit = r.Options.Limit
      ∧ (r.Filter f).Options.Offset = r.Options.Offset
      ∧ (r.Filter f).Session = r.Session)
    ∧ ((r.Limit v).Options.Limit = some v
      ∧ (r.Limit v).Options.Id = r.Options.Id
      ∧ (r.Limit v).Options.Mask = r.Options.Mask
      ∧ (r.Limit v).Options.Filter = r.Options.Filter
      ∧ (r.Limit v).Options.Offset = r.Options.Offset
      ∧ (r.Limit v).Session = r.Session)
    ∧ ((r.Offset v).Options.Offset = some v
      ∧ (r.Offset v).Options.Id = r.Options.Id
      ∧ (r.Offset v).Options.Mask = r.Options.Mask
      ∧ (r.Offset v).Options.Filter = r.Options.Filter
      ∧ (r.Offset v).Options.Limit = r.Options.Limit
      ∧ (r.Offset v).Session = r.Session) :=
  ⟨⟨rfl, rfl, rfl, rfl, rfl, rfl⟩, ⟨rfl, rfl, rfl, rfl, rfl, rfl⟩,
    ⟨rfl, rfl, rfl, rfl, rfl, rfl⟩, ⟨rfl, rfl, rfl, rfl, rfl, rfl⟩,
    ⟨rfl, rfl, rfl, rfl, rfl, rfl⟩⟩

/-- C10 (amended): a non-empty filter string that parses as valid JSON
whose top-level value is neither an object nor the literal `null` makes
`DoRequest` return the filter-encoding error (given an obtainable
client); the literal `null` is the one non-object document Go's
`json.Unmarshal` accepts into a map (zeroing it), so it is excluded. -/
theorem c10_nonobject_filter_amended (newClientOk : String → Bool) (x : XmlRpcTransport)
    (pool : Pool) (sess : Session) (service method : String) (args : List Value)
    (options : Options) (j : Json)
    (hfil : options.Filter ≠ "")
    (hjson : parseJson options.Filter = some j)
    (hnotobj : ∀ ms, j ≠ Json.obj ms)
    (hnotnull : j ≠ Json.null)
    (hcreate : Pool.find pool service ≠ none
      ∨ newClientOk (sess.Endpoint ++ "/" ++ service) = true) :
    (DoRequest newClientOk x pool sess service method args options).1
      = Except.error (SLError.filterEncoding options.Filter) := by
  have hbad : unmarshalObjectFilter options.Filter = none := by
    rw [unmarshalObjectFilter, hjson]
    cases j with
    | obj ms => exact absurd rfl (hnotobj ms)
    | null => exact absurd rfl hnotnull
    | bool b => rfl
    | num l => rfl
    | str s => rfl
    | arr es => rfl
  exact doRequest_filter_encoding newClientOk x pool sess service method args options
    hfil hbad hcreate

/-- C10 witness: the filter `3` is valid JSON (a number, not an object),
and `DoRequest` returns the filter-encoding error for it. -/
theorem c10_nonobject_filter_witness :
    (DoRequest (fun _ => true) ⟨0⟩ [] ⟨"e", "u", "k", false⟩ "S" "m" []
        ⟨none, "", "3", none, none⟩).1
      = Except.error (SLError.filterEncoding "3") :=
  c10_nonobject_filter_amended (fun _ => true) ⟨0⟩ [] ⟨"e", "u", "k", false⟩ "S" "m" []
    ⟨none, "", "3", none, none⟩ (Json.num "3") (by decide) rfl
    (fun _ h => Json.noConfusion h) (fun h => Json.noConfusion h) (Or.inr rfl)

/-- C10 counterexample: the filter `null` is valid JSON whose top-level
value is not a JSON object, yet `DoRequest` succeeds — Go's
`json.Unmarshal` accepts `null` into a map (leaving it empty) — so the
claim as stated is false: not every valid non-object JSON document is
rejected. -/
theorem c10_counterexample :
    parseJson "null" = some Json.null
    ∧ unmarshalObjectFilter "null" = some []
    ∧ (DoRequest (fun _ => true) ⟨0⟩ [] ⟨"e", "u", "k", false⟩ "Widget" "getObject" []
        ⟨none, "", "null", none, none⟩).1
      = Except.ok ⟨⟨"e/Widget", false, 30000000000⟩, "getObject",
          [Value.vMap [("headers", Value.vMap
            [("authenticate", Value.vStrMap [("username", "u"), ("apiKey", "k")]),
             ("WidgetObjectFilter", Value.vJsonObj [])])]]⟩ :=
  ⟨rfl, rfl, rfl⟩
